import Mathlib

/-!
Verification of the pad_etl core against its specification.

The definitions below are shallow embeddings of the Python sources:
`pad_etl/data/card.py` (value curves and the `unflatten` token-array
helper), `pad_etl/data/bonus.py` (the event-bonus decoder) and
`pad_etl/storage/db_util.py` (the upsert engine).  Collaborators that are
not part of the sources (`sql_item.py`, `pad_util.py`, the relational
store) are modelled from the specification and marked as such in their
doc comments.
-/

set_option maxHeartbeats 1000000

/-! ## Token arrays and `unflatten` (card.py) -/

/-- A token of the raw positional card array: the array is heterogeneous,
holding integers, strings, and (after `unflatten` in replace mode) nested
lists of tokens. -/
inductive Tok where
  | int (n : ℤ)
  | str (s : String)
  | list (xs : List Tok)

/-- Clamp one bound of a Python step-1 slice to a valid position:
negative bounds count from the end, then the bound is clamped to
`[0, len]`.  Mirrors CPython slice-index normalisation. -/
def sliceBound (len : ℕ) (v : ℤ) : ℕ :=
  (max 0 (min (if v < 0 then v + len else v) len)).toNat

/-- `unflatten` from card.py.  `idx` is the slot holding the item count,
`width` the number of slots per item.  The `width * item_count` tokens
after `idx` are extracted; in replace mode they are stored as a single
list token at `idx`, otherwise they are simply deleted (the count slot
itself is never deleted).  Returns `none` where Python raises
(`IndexError` on a bad index, `TypeError` on a non-integer count). -/
def unflatten (raw : List Tok) (idx : ℕ) (width : ℤ) (replace : Bool) :
    Option (List Tok) :=
  match raw.get? idx with
  | none => none
  | some (Tok.str _) => none
  | some (Tok.list _) => none
  | some (Tok.int item_count) =>
    if item_count = 0 ∧ replace = true then
      some (raw.set idx (Tok.list []))
    else
      let data_start : ℤ := (idx : ℤ) + 1
      let flattened_item_count : ℤ := width * item_count
      let a : ℕ := sliceBound raw.length data_start
      let b : ℕ := max a (sliceBound raw.length (data_start + flattened_item_count))
      let data := (raw.drop a).take (b - a)
      let deleted := raw.take a ++ raw.drop b
      some (if replace then deleted.set idx (Tok.list data) else deleted)

theorem get_append_cons_len {α : Type} (pre : List α) (x : α) (rest : List α) :
    (pre ++ x :: rest).get? pre.length = some x := by
  induction pre with
  | nil => rfl
  | cons h t ih => exact ih

theorem drop_append_cons_add {α : Type} (pre : List α) (x : α) (rest : List α)
    (n : ℕ) : (pre ++ x :: rest).drop (pre.length + 1 + n) = rest.drop n := by
  induction pre with
  | nil =>
    have h0 : List.length ([] : List α) + 1 + n = n + 1 := by simp; omega
    rw [h0]
    rfl
  | cons h t ih =>
    have : (h :: t).length + 1 + n = (t.length + 1 + n) + 1 := by
      simp [List.length_cons]
      omega
    rw [this]
    exact ih

theorem drop_append_cons_len {α : Type} (pre : List α) (x : α) (rest : List α) :
    (pre ++ x :: rest).drop (pre.length + 1) = rest := by
  exact drop_append_cons_add pre x rest 0

theorem take_append_cons_len {α : Type} (pre : List α) (x : α) (rest : List α) :
    (pre ++ x :: rest).take (pre.length + 1) = pre ++ [x] := by
  induction pre with
  | nil => rfl
  | cons h t ih =>
    have h1 : (h :: t).length + 1 = (t.length + 1) + 1 := by
      simp [List.length_cons]
    rw [h1]
    exact congrArg (fun l => h :: l) ih

theorem set_append_cons_len {α : Type} (pre : List α) (x y : α) (rest : List α) :
    (pre ++ x :: rest).set pre.length y = pre ++ y :: rest := by
  induction pre with
  | nil => rfl
  | cons h t ih => exact congrArg (fun l => h :: l) ih

theorem length_append_cons {α : Type} (pre : List α) (x : α) (rest : List α) :
    (pre ++ x :: rest).length = pre.length + 1 + rest.length := by
  simp [List.length_append]
  omega

/-- Helper: the slice bounds computed by `unflatten` for an in-range
nonnegative bound. -/
theorem sliceBound_eval (len : ℕ) (v : ℤ) (h0 : 0 ≤ v) (h1 : v ≤ (len : ℤ)) :
    sliceBound len v = v.toNat := by
  unfold sliceBound
  rw [if_neg (by omega)]
  omega

/-- Unfolding lemma for `unflatten` once the count slot is known to hold
an integer. -/
theorem unflatten_int (raw : List Tok) (idx : ℕ) (width : ℤ) (replace : Bool)
    (n : ℤ) (h : raw.get? idx = some (Tok.int n)) :
    unflatten raw idx width replace =
      if n = 0 ∧ replace = true then some (raw.set idx (Tok.list []))
      else
        some (if replace = true
          then (raw.take (sliceBound raw.length ((idx : ℤ) + 1)) ++
                raw.drop (max (sliceBound raw.length ((idx : ℤ) + 1))
                  (sliceBound raw.length ((idx : ℤ) + 1 + width * n)))).set idx
               (Tok.list ((raw.drop (sliceBound raw.length ((idx : ℤ) + 1))).take
                  (max (sliceBound raw.length ((idx : ℤ) + 1))
                    (sliceBound raw.length ((idx : ℤ) + 1 + width * n))
                   - sliceBound raw.length ((idx : ℤ) + 1))))
          else raw.take (sliceBound raw.length ((idx : ℤ) + 1)) ++
               raw.drop (max (sliceBound raw.length ((idx : ℤ) + 1))
                 (sliceBound raw.length ((idx : ℤ) + 1 + width * n)))) := by
  unfold unflatten
  rw [h]

/-- Core computation: `unflatten` on a token array holding count `3` at
index `pre.length`, followed by the `9 = 3 × 3` segment tokens `mid` and
then the remaining fields `suf`.  Replace mode stores the flat list `mid`
at the count slot and shifts `suf` forward by 9 positions; delete mode
removes only the 9 segment tokens, keeping the count slot, so `suf` also
shifts forward by exactly 9 positions. -/
theorem unflatten_count3_width3 (pre mid suf : List Tok) (hmid : mid.length = 9) :
    unflatten (pre ++ Tok.int 3 :: (mid ++ suf)) pre.length 3 true
      = some (pre ++ Tok.list mid :: suf) ∧
    unflatten (pre ++ Tok.int 3 :: (mid ++ suf)) pre.length 3 false
      = some (pre ++ Tok.int 3 :: suf) := by
  have hget : (pre ++ Tok.int 3 :: (mid ++ suf)).get? pre.length
      = some (Tok.int 3) := get_append_cons_len pre _ _
  have hlen : (pre ++ Tok.int 3 :: (mid ++ suf)).length
      = pre.length + 10 + suf.length := by
    rw [length_append_cons]
    simp [List.length_append, hmid]
    omega
  have ha : sliceBound (pre ++ Tok.int 3 :: (mid ++ suf)).length
      ((pre.length : ℤ) + 1) = pre.length + 1 := by
    rw [hlen, sliceBound_eval] <;> omega
  have hb : sliceBound (pre ++ Tok.int 3 :: (mid ++ suf)).length
      ((pre.length : ℤ) + 1 + 3 * 3) = pre.length + 10 := by
    rw [hlen, sliceBound_eval] <;> omega
  have hdrop1 : (pre ++ Tok.int 3 :: (mid ++ suf)).drop (pre.length + 1)
      = mid ++ suf := drop_append_cons_len pre _ _
  have hdata : ((pre ++ Tok.int 3 :: (mid ++ suf)).drop (pre.length + 1)).take 9
      = mid := by
    rw [hdrop1, ← hmid, List.take_left]
  have hdropb : (pre ++ Tok.int 3 :: (mid ++ suf)).drop (pre.length + 10)
      = suf := by
    have h9 : pre.length + 10 = pre.length + 1 + 9 := by omega
    rw [h9, drop_append_cons_add, ← hmid, List.drop_left]
  have htake : (pre ++ Tok.int 3 :: (mid ++ suf)).take (pre.length + 1)
      = pre ++ [Tok.int 3] := take_append_cons_len pre _ _
  have hdel : (pre ++ Tok.int 3 :: (mid ++ suf)).take (pre.length + 1)
      ++ (pre ++ Tok.int 3 :: (mid ++ suf)).drop (pre.length + 10)
      = pre ++ Tok.int 3 :: suf := by
    rw [htake, hdropb, List.append_assoc]
    rfl
  have hmax : max (pre.length + 1) (pre.length + 10) = pre.length + 10 :=
    max_eq_right (by omega)
  have hsub : pre.length + 10 - (pre.length + 1) = 9 := by omega
  constructor
  · rw [unflatten_int _ _ _ _ 3 hget, if_neg (by norm_num), if_pos rfl]
    rw [ha, hb, hmax, hsub, hdata, htake, hdropb, List.append_assoc,
      List.singleton_append, set_append_cons_len]
  · rw [unflatten_int _ _ _ _ 3 hget, if_neg (by norm_num), if_neg (by simp)]
    rw [ha, hb, hmax, htake, hdropb, List.append_assoc, List.singleton_append]

/-- C3 (amended): for a token array holding count 3 at index `pre.length`
followed by the 9 = 3 × 3 segment tokens `mid` and the remaining fields
`suf`, `unflatten` with width 3 in replace mode stores the flat list of
the 9 segment tokens at the count slot (grouping into width-3 tuples
happens later, at consumption), and every field after the segment shifts
toward the front by exactly 9 positions; in delete mode the 9 segment
tokens are removed but the count slot itself is retained, so later fields
again shift by exactly 9 positions, not 10. -/
theorem c3_unflatten_count3_width3 (pre mid suf : List Tok)
    (hmid : mid.length = 9) :
    unflatten (pre ++ Tok.int 3 :: (mid ++ suf)) pre.length 3 true
      = some (pre ++ Tok.list mid :: suf) ∧
    unflatten (pre ++ Tok.int 3 :: (mid ++ suf)) pre.length 3 false
      = some (pre ++ Tok.int 3 :: suf) :=
  unflatten_count3_width3 pre mid suf hmid

/-- A concrete count-3 width-3 segment: the 9 tokens 11..19. -/
def mid9 : List Tok :=
  [Tok.int 11, Tok.int 12, Tok.int 13, Tok.int 14, Tok.int 15,
   Tok.int 16, Tok.int 17, Tok.int 18, Tok.int 19]

/-- A concrete token array: count 3 at index 0, the 9 segment tokens,
then one trailing field 99 at index 10. -/
def ex3 : List Tok := Tok.int 3 :: (mid9 ++ [Tok.int 99])

/-- C3 counterexample: in delete mode the count slot is NOT removed: the
trailing field originally at index 10 lands at index 1 (a shift of 9), so
the result is `[3, 99]` and not the `[99]` that a shift of 10 with the
count slot removed would produce. -/
theorem c3_counterexample :
    unflatten ex3 0 3 false = some [Tok.int 3, Tok.int 99] ∧
    unflatten ex3 0 3 false ≠ some [Tok.int 99] := by
  constructor
  · rfl
  · intro h
    rw [show unflatten ex3 0 3 false = some [Tok.int 3, Tok.int 99] from rfl] at h
    simp at h

/-- C3 witness: the amended theorem evaluated on the concrete array
`ex3` (count 3 at index 0, nine segment tokens, one trailing field). -/
theorem c3_witness :
    mid9.length = 9 ∧
    (unflatten (Tok.int 3 :: (mid9 ++ [Tok.int 99])) 0 3 true
        = some (Tok.list mid9 :: [Tok.int 99]) ∧
     unflatten (Tok.int 3 :: (mid9 ++ [Tok.int 99])) 0 3 false
        = some (Tok.int 3 :: [Tok.int 99])) :=
  ⟨rfl, c3_unflatten_count3_width3 [] mid9 [Tok.int 99] rfl⟩

/-! ## Value curves (card.py, class Curve) -/

/-- A stat curve as stored by `Curve.__init__`.  Numeric fields are
modelled as rationals (Python ints/floats), the level as an integer. -/
structure Curve where
  min_value : ℚ
  max_value : ℚ
  scale : ℚ
  max_level : ℤ

/-- `Curve.__init__` from card.py: `max_value or min_value * max_level`
makes any falsy `max_value` (None or 0) fall back to
`min_value * max_level` (computed with the raw, unclamped `max_level`),
and the stored `max_level` is clamped to at least 1.  Python defaults:
`max_value=None`, `scale=1.0`, `max_level=10`. -/
def Curve.init (min_value : ℚ) (max_value : Option ℚ) (scale : ℚ)
    (max_level : ℤ) : Curve :=
  { min_value := min_value
    max_value := match max_value with
      | none => min_value * max_level
      | some v => if v = 0 then min_value * max_level else v
    scale := scale
    max_level := max max_level 1 }

/-- `Curve.value_at` from card.py:
`f = 1 if max_level == 1 else (level - 1) / (max_level - 1)` and the
result is `min_value + (max_value - min_value) * pow(f, scale)`, with
`math.pow` modelled as real exponentiation. -/
noncomputable def Curve.value_at (c : Curve) (level : ℤ) : ℝ :=
  (c.min_value : ℝ) + ((c.max_value : ℝ) - (c.min_value : ℝ)) *
    ((if c.max_level = 1 then (1 : ℝ)
      else ((level : ℝ) - 1) / ((c.max_level : ℝ) - 1)) ^ (c.scale : ℝ))

/-- At the stored maximum level the curve always evaluates to
`max_value`: the ratio is 1 both in the `max_level = 1` special case and
in the generic case `(max_level - 1)/(max_level - 1)`. -/
theorem Curve.value_at_max_level (c : Curve) :
    c.value_at c.max_level = (c.max_value : ℝ) := by
  unfold Curve.value_at
  by_cases h : c.max_level = 1
  · rw [if_pos h, Real.one_rpow]
    ring
  · rw [if_neg h]
    have hne : ((c.max_level : ℝ) - 1) ≠ 0 := by
      intro hc
      apply h
      have h1 : (c.max_level : ℝ) = ((1 : ℤ) : ℝ) := by push_cast; linarith
      exact_mod_cast h1
    rw [div_self hne, Real.one_rpow]
    ring

/-- C2 counterexample: the curve built from `Curve(5, 10, 1.0, 1)` has
`max_level = 1` and `min_value = 5`, yet `value_at(3) = 10`: with the
ratio fixed at 1 the curve collapses to `max_value`, not `min_value`. -/
theorem c2_counterexample :
    (Curve.init 5 (some 10) 1 1).max_level = 1 ∧
    (Curve.init 5 (some 10) 1 1).min_value = 5 ∧
    (Curve.init 5 (some 10) 1 1).value_at 3 = 10 ∧ (10 : ℝ) ≠ 5 := by
  refine ⟨by decide, rfl, ?_, by norm_num⟩
  unfold Curve.value_at
  rw [if_pos (by decide : (Curve.init 5 (some 10) 1 1).max_level = 1),
    Real.one_rpow]
  norm_num [Curve.init]

/-- C2 (amended): when `max_level = 1` the interpolation ratio is defined
as exactly 1 (avoiding the division by zero), so `value_at` collapses to
`max_value` at every level — it equals `min_value` only in the special
case `max_value = min_value` (as when `max_value` was defaulted). -/
theorem c2_maxlevel_one (c : Curve) (h : c.max_level = 1) (level : ℤ) :
    c.value_at level = (c.max_value : ℝ) := by
  unfold Curve.value_at
  rw [if_pos h, Real.one_rpow]
  ring

/-- C2 witness: the amended theorem evaluated on `Curve(5, 10, 1.0, 1)`
at level 7. -/
theorem c2_witness :
    (Curve.init 5 (some 10) 1 1).max_level = 1 ∧
    (Curve.init 5 (some 10) 1 1).value_at 7
      = ((Curve.init 5 (some 10) 1 1).max_value : ℝ) :=
  ⟨by decide, c2_maxlevel_one _ (by decide) 7⟩

/-- C9 counterexample: `Curve(2, 6, 0.0, 5)` has `scale = 0`, levels 1..5
in range, `min_value = 2`, but `value_at(1) = 2 + 4 * 0^0 = 6 ≠ 2`: the
endpoint identity `value_at(1) = min` fails for `scale = 0` (the claim
quantifies over every curve, without the `scale > 0` restriction). -/
theorem c9_counterexample :
    (Curve.init 2 (some 6) 0 5).max_level = 5 ∧
    (Curve.init 2 (some 6) 0 5).min_value = 2 ∧
    (Curve.init 2 (some 6) 0 5).value_at 1 = 6 ∧ (6 : ℝ) ≠ 2 := by
  refine ⟨by decide, rfl, ?_, by norm_num⟩
  unfold Curve.value_at
  rw [if_neg (by decide : ¬ (Curve.init 2 (some 6) 0 5).max_level = 1)]
  norm_num [Curve.init, Real.rpow_zero]

/-- C9 (amended): for every curve with `max_level ≥ 2` and `scale > 0`,
`value_at(1) = min_value` and `value_at(max_level) = max_value` exactly,
and `value_at` is monotonically non-decreasing on levels `1..max_level`
whenever additionally `max_value ≥ min_value`.  (The unrestricted claim
fails at `scale = 0` and at `max_level = 1` with `max ≠ min`.) -/
theorem c9_curve_endpoints_monotone (c : Curve) (hml : 2 ≤ c.max_level)
    (hs : 0 < c.scale) :
    c.value_at 1 = (c.min_value : ℝ) ∧
    c.value_at c.max_level = (c.max_value : ℝ) ∧
    ((c.min_value : ℝ) ≤ (c.max_value : ℝ) →
      ∀ l1 l2 : ℤ, 1 ≤ l1 → l1 ≤ l2 → l2 ≤ c.max_level →
        c.value_at l1 ≤ c.value_at l2) := by
  have hne1 : ¬ c.max_level = 1 := by omega
  have hden : (0 : ℝ) < (c.max_level : ℝ) - 1 := by
    have h2 : (2 : ℝ) ≤ (c.max_level : ℝ) := by exact_mod_cast hml
    linarith
  have hsR : (0 : ℝ) < (c.scale : ℝ) := by exact_mod_cast hs
  refine ⟨?_, c.value_at_max_level, ?_⟩
  · unfold Curve.value_at
    rw [if_neg hne1]
    have hzero : (((1 : ℤ) : ℝ) - 1) / ((c.max_level : ℝ) - 1) = 0 := by
      norm_num
    rw [hzero, Real.zero_rpow (ne_of_gt hsR)]
    ring
  · intro hmm l1 l2 h1 h12 h2
    unfold Curve.value_at
    simp only [if_neg hne1]
    have hf0 : (0 : ℝ) ≤ ((l1 : ℝ) - 1) / ((c.max_level : ℝ) - 1) := by
      apply div_nonneg _ (le_of_lt hden)
      have : (1 : ℝ) ≤ (l1 : ℝ) := by exact_mod_cast h1
      linarith
    have hff : ((l1 : ℝ) - 1) / ((c.max_level : ℝ) - 1)
        ≤ ((l2 : ℝ) - 1) / ((c.max_level : ℝ) - 1) := by
      have h12R : (l1 : ℝ) ≤ (l2 : ℝ) := by exact_mod_cast h12
      gcongr
    have hpow := Real.rpow_le_rpow hf0 hff (le_of_lt hsR)
    have hsmm : (0 : ℝ) ≤ (c.max_value : ℝ) - (c.min_value : ℝ) := by
      linarith
    have := mul_le_mul_of_nonneg_left hpow hsmm
    linarith

/-- C9 witness: the amended theorem evaluated on `Curve(2, 10, 1.0, 10)`,
whose stored `max_level` is 10 and `scale` is 1. -/
theorem c9_witness :
    2 ≤ (Curve.init 2 (some 10) 1 10).max_level ∧
    0 < (Curve.init 2 (some 10) 1 10).scale ∧
    ((Curve.init 2 (some 10) 1 10).value_at 1
        = ((Curve.init 2 (some 10) 1 10).min_value : ℝ) ∧
     (Curve.init 2 (some 10) 1 10).value_at
        (Curve.init 2 (some 10) 1 10).max_level
        = ((Curve.init 2 (some 10) 1 10).max_value : ℝ) ∧
     (((Curve.init 2 (some 10) 1 10).min_value : ℝ)
          ≤ ((Curve.init 2 (some 10) 1 10).max_value : ℝ) →
       ∀ l1 l2 : ℤ, 1 ≤ l1 → l1 ≤ l2 →
         l2 ≤ (Curve.init 2 (some 10) 1 10).max_level →
         (Curve.init 2 (some 10) 1 10).value_at l1
           ≤ (Curve.init 2 (some 10) 1 10).value_at l2)) :=
  ⟨by decide, by decide,
   c9_curve_endpoints_monotone _ (by decide) (by decide)⟩

/-- C10: constructing a curve with `max_value` omitted (None) or 0 stores
`min_value * max_level` as the maximum (the raw `max_level`, before
clamping), so an explicit maximum of zero cannot be represented, and
`value_at` at the stored maximum level interpolates to
`min_value * max_level` instead of 0. -/
theorem c10_curve_default_max (m s : ℚ) (ml : ℤ) :
    (Curve.init m none s ml).max_value = m * ml ∧
    (Curve.init m (some 0) s ml).max_value = m * ml ∧
    (Curve.init m (some 0) s ml).value_at ((Curve.init m (some 0) s ml).max_level)
      = ((m * ml : ℚ) : ℝ) := by
  refine ⟨rfl, by simp [Curve.init], ?_⟩
  rw [Curve.value_at_max_level]
  simp [Curve.init]

/-! ## Event-bonus decoder (bonus.py, class Bonus) -/

/-- A JSON-ish value of a raw bonus object: integers, strings, and (as
results of the percentage transforms) rationals. -/
inductive Val where
  | int (n : ℤ)
  | rat (q : ℚ)
  | str (s : String)
deriving DecidableEq

/-- Python `str(...)` on a raw value. -/
def pyStr : Val → String
  | .int n => toString n
  | .rat q => toString q
  | .str s => s

/-- Python `int(...)` on a raw value; `none` models the `TypeError` or
`ValueError` Python raises on an unconvertible value. -/
def pyInt : Val → Option ℤ
  | .int n => some n
  | .rat _ => none
  | .str s => s.toInt?

/-- Modelled from the spec: `ghmult_plain` of `pad_util.py` is absent
from the sources; the spec defines the percentage-to-multiplier
transform as converting an integer percentage (e.g. 150) to a decimal
multiplier (e.g. 1.5). -/
def ghmult_plain : Val → Option Val
  | .int n => some (.rat ((n : ℚ) / 100))
  | .rat q => some (.rat (q / 100))
  | .str _ => none

/-- Modelled from the spec: `ghchance_plain` of `pad_util.py` is absent
from the sources; the spec describes it as the percentage-to-chance
transform on an integer percentage. -/
def ghchance_plain : Val → Option Val
  | .int n => some (.rat ((n : ℚ) / 100))
  | .rat _ => none
  | .str _ => none

/-- The `int` transform used by the `pem_cost` category. -/
def intFn (v : Val) : Option Val := (pyInt v).map Val.int

/-- The recognized tag set: `Bonus.keys = 'sebiadmf'` from bonus.py. -/
def bonusKeys : Finset String := {"s", "e", "b", "i", "a", "d", "m", "f"}

/-- One entry of the `Bonus.types` table: a display name and an optional
value transform (`mod_fn`). -/
structure BonusInfo where
  name : String
  mod_fn : Option (Val → Option Val)

/-- The closed `Bonus.types` category table from bonus.py, keyed by the
raw category id. -/
def bonusTypes : ℤ → Option BonusInfo
  | 1 => some ⟨"Exp Boost", some ghmult_plain⟩
  | 2 => some ⟨"Coin Boost", some ghmult_plain⟩
  | 3 => some ⟨"Drop Boost", some ghmult_plain⟩
  | 5 => some ⟨"Stamina Reduction", some ghmult_plain⟩
  | 6 => some ⟨"dungeon", none⟩
  | 8 => some ⟨"pem_event", none⟩
  | 9 => some ⟨"rem_event", none⟩
  | 10 => some ⟨"pem_cost", some intFn⟩
  | 11 => some ⟨"Feed Exp Bonus Chance", some ghmult_plain⟩
  | 12 => some ⟨"+Egg Drop Rate 1", some ghchance_plain⟩
  | 14 => some ⟨"gf_?", none⟩
  | 16 => some ⟨"+Egg Drop Rate 2", some ghmult_plain⟩
  | 17 => some ⟨"Feed Skill-Up Chance", some ghmult_plain⟩
  | 20 => some ⟨"tournament_active", none⟩
  | 21 => some ⟨"tournament_closed", none⟩
  | 22 => some ⟨"score_announcement", none⟩
  | 23 => some ⟨"meta?", none⟩
  | 24 => some ⟨"gift_dungeon_with_reward", none⟩
  | 25 => some ⟨"dungeon_special_event", none⟩
  | 29 => some ⟨"multiplayer_announcement", none⟩
  | 31 => some ⟨"multiplayer_dungeon_text", none⟩
  | 32 => some ⟨"tournament_text", none⟩
  | 36 => some ⟨"daily_dragons", none⟩
  | 37 => some ⟨"monthly_quest_dungeon", none⟩
  | 39 => some ⟨"dungeon_floor_text", none⟩
  | 43 => some ⟨"monthly_quest_info", none⟩
  | _ => none

/-- A raw bonus object: a finite key set together with the value stored
at each key (meaningful only on keys of the set). -/
structure RawBonus where
  keys : Finset String
  val : String → Val

/-- `raw[k]` on a Python dict: `KeyError` when the key is absent. -/
def RawBonus.get (raw : RawBonus) (k : String) : Option Val :=
  if k ∈ raw.keys then some (raw.val k) else none

/-- Errors of the bonus decoder: the unexpected-keys `ValueError`
(DecodeSchemaError) carrying the offending key set, a missing mandatory
key (`KeyError`), and a failed conversion (`TypeError`/`ValueError`). -/
inductive BonusError where
  | unexpectedKeys (ks : Finset String)
  | keyError (k : String)
  | typeError
deriving DecidableEq

/-- A decoded bonus record: the fields assigned by `Bonus.__init__`. -/
structure Bonus where
  start_time_str : String
  start_timestamp : ℤ
  end_time_str : String
  end_timestamp : ℤ
  dungeon_id : Option Val
  dungeon_floor_id : Option Val
  egg_machine_id : Option ℤ
  message : Option String
  clean_message : Option String
  bonus_value : Option Val
  bonus_name : String
  bonus_id : ℤ
deriving DecidableEq

/-- The egg-machine field of `Bonus.__init__`: `int(raw['i'])` when `i`
is present; `none` (outer) models the conversion error. -/
def eggMachineFor (raw : RawBonus) : Option (Option ℤ) :=
  if "i" ∈ raw.keys then (pyInt (raw.val "i")).map some else some none

/-- The bonus-value field of `Bonus.__init__`: the raw `a` value when
present, passed through the category transform `mod_fn` when the
category declares one; `none` (outer) models the conversion error. -/
def bonusValueFor (info : BonusInfo) (raw : RawBonus) : Option (Option Val) :=
  if "a" ∈ raw.keys then
    match info.mod_fn with
    | some f => (f (raw.val "a")).map some
    | none => some (some (raw.val "a"))
  else some none

/-- The final step of `Bonus.__init__`: fail with a type error when the
bonus-value computation failed, otherwise build the record. -/
def finishBonus (bv : Option (Option Val)) (mk : Option Val → Bonus) :
    Except BonusError Bonus :=
  match bv with
  | none => .error .typeError
  | some bonus_value => .ok (mk bonus_value)

theorem finishBonus_ne_schema (bv : Option (Option Val))
    (mk : Option Val → Bonus) (ks : Finset String) :
    finishBonus bv mk ≠ .error (.unexpectedKeys ks) := by
  cases bv <;> simp [finishBonus]

/-- `Bonus.__init__` from bonus.py.  `gh` models the external
`pad_util.gh_to_timestamp` (server-localized time string to absolute
time) and `sc` models `pad_util.strip_colors`; both live in the absent
`pad_util.py` and are passed as parameters.  The decoder first rejects
any key outside `bonusKeys`, naming exactly the unrecognized keys, then
reads the mandatory `s`, `e`, `b` fields and the optional `d`, `f`, `i`,
`m`, `a` fields, selecting the category from `bonusTypes` with an
`unknown_id:<id>` fallback and applying the category transform to a
present raw value. -/
def Bonus.init (gh : String → String → ℤ) (sc : String → String)
    (raw : RawBonus) (server : String) : Except BonusError Bonus :=
  if ¬ raw.keys ⊆ bonusKeys then
    .error (.unexpectedKeys (raw.keys \ bonusKeys))
  else
    match raw.get "s" with
    | none => .error (.keyError "s")
    | some sv =>
      let start_time_str := pyStr sv
      let start_timestamp := gh start_time_str server
      match raw.get "e" with
      | none => .error (.keyError "e")
      | some ev =>
        let end_time_str := pyStr ev
        let end_timestamp := gh end_time_str server
        let dungeon_id := if "d" ∈ raw.keys then some (raw.val "d") else none
        let dungeon_floor_id := if "f" ∈ raw.keys then some (raw.val "f") else none
        match eggMachineFor raw with
        | none => .error .typeError
        | some egg_machine_id =>
          let message := if "m" ∈ raw.keys then some (pyStr (raw.val "m")) else none
          let clean_message := match message with
            | some m => some (sc m)
            | none => none
          match raw.get "b" with
          | none => .error (.keyError "b")
          | some bv =>
            match pyInt bv with
            | none => .error .typeError
            | some bonus_id =>
              let info := (bonusTypes bonus_id).getD
                ⟨"unknown_id:" ++ toString bonus_id, none⟩
              finishBonus (bonusValueFor info raw) (fun bonus_value =>
                { start_time_str := start_time_str
                  start_timestamp := start_timestamp
                  end_time_str := end_time_str
                  end_timestamp := end_timestamp
                  dungeon_id := dungeon_id
                  dungeon_floor_id := dungeon_floor_id
                  egg_machine_id := egg_machine_id
                  message := message
                  clean_message := clean_message
                  bonus_value := bonus_value
                  bonus_name := info.name
                  bonus_id := bonus_id })

/-- C4: the bonus decoder rejects exactly the raw objects whose key set
is not contained in the recognized tag set `{s,e,b,i,a,d,m,f}`, raising
the decode-schema error that names exactly the unrecognized keys
(`set(raw) - set(Bonus.keys)`); when every key is recognized it never
raises this error (any later failure is a key or type error). -/
theorem c4_bonus_unexpected_keys (gh : String → String → ℤ)
    (sc : String → String) (raw : RawBonus) (server : String) :
    (¬ raw.keys ⊆ bonusKeys →
      Bonus.init gh sc raw server
        = .error (.unexpectedKeys (raw.keys \ bonusKeys))) ∧
    (raw.keys ⊆ bonusKeys →
      ∀ ks : Finset String,
        Bonus.init gh sc raw server ≠ .error (.unexpectedKeys ks)) := by
  constructor
  · intro h
    unfold Bonus.init
    rw [if_pos h]
  · intro hsub ks hcontra
    unfold Bonus.init at hcontra
    rw [if_neg (not_not_intro hsub)] at hcontra
    repeat' split at hcontra
    all_goals first
      | exact absurd hcontra (finishBonus_ne_schema _ _ _)
      | simp_all

/-- A trivial timestamp collaborator for concrete evaluations. -/
def ghZero : String → String → ℤ := fun _ _ => 0

/-- A trivial color-stripping collaborator for concrete evaluations. -/
def scId : String → String := fun s => s

/-- The raw bonus object of the spec example: a single unrecognized key
`x` mapped to 1. -/
def rawX : RawBonus := ⟨{"x"}, fun _ => .int 1⟩

/-- C4 witness: decoding `{'x': 1}` raises the decode-schema error
naming exactly `{'x'}`. -/
theorem c4_witness :
    ¬ rawX.keys ⊆ bonusKeys ∧
    Bonus.init ghZero scId rawX "na"
      = .error (.unexpectedKeys (rawX.keys \ bonusKeys)) ∧
    rawX.keys \ bonusKeys = {"x"} :=
  ⟨by decide, (c4_bonus_unexpected_keys ghZero scId rawX "na").1 (by decide),
   by decide⟩

/-- C5: a raw bonus object whose category id `bid` is outside the closed
`Bonus.types` table decodes without failing: the synthesized category
gives `bonus_name = "unknown_id:<id>"` carrying the raw id, and no value
transform is applied — a present raw `a` value is stored unchanged.
(Hypotheses: the keys are recognized, the mandatory `s`, `e`, `b` keys
are present, `b` holds the integer `bid`, and a present `i` value is
convertible, as `int(raw['i'])` runs before the category lookup.) -/
theorem c5_bonus_unknown_category (gh : String → String → ℤ)
    (sc : String → String) (raw : RawBonus) (server : String) (bid : ℤ)
    (hsub : raw.keys ⊆ bonusKeys)
    (hs : "s" ∈ raw.keys) (he : "e" ∈ raw.keys) (hb : "b" ∈ raw.keys)
    (hbv : raw.val "b" = .int bid)
    (hunk : bonusTypes bid = none)
    (hi : "i" ∈ raw.keys → (pyInt (raw.val "i")).isSome = true) :
    ∃ b : Bonus, Bonus.init gh sc raw server = .ok b ∧
      b.bonus_name = "unknown_id:" ++ toString bid ∧
      b.bonus_id = bid ∧
      b.bonus_value = (if "a" ∈ raw.keys then some (raw.val "a") else none) := by
  have hegg : ∃ e : Option ℤ, eggMachineFor raw = some e := by
    unfold eggMachineFor
    by_cases hik : "i" ∈ raw.keys
    · rw [if_pos hik]
      obtain ⟨n, hn⟩ := Option.isSome_iff_exists.mp (hi hik)
      exact ⟨some n, by rw [hn]; rfl⟩
    · rw [if_neg hik]
      exact ⟨none, rfl⟩
  obtain ⟨egg, hegg⟩ := hegg
  have hbval : bonusValueFor
      ((bonusTypes bid).getD ⟨"unknown_id:" ++ toString bid, none⟩) raw
      = some (if "a" ∈ raw.keys then some (raw.val "a") else none) := by
    rw [hunk]
    unfold bonusValueFor
    by_cases hak : "a" ∈ raw.keys
    · rw [if_pos hak, if_pos hak]
      rfl
    · rw [if_neg hak, if_neg hak]
  unfold Bonus.init
  rw [if_neg (not_not_intro hsub)]
  simp only [show raw.get "s" = some (raw.val "s") from by simp [RawBonus.get, hs],
    show raw.get "e" = some (raw.val "e") from by simp [RawBonus.get, he],
    show raw.get "b" = some (raw.val "b") from by simp [RawBonus.get, hb],
    hegg, hbv, pyInt, hbval, finishBonus]
  refine ⟨_, rfl, ?_, rfl, rfl⟩
  rw [hunk]
  rfl

/-- The raw bonus object of the spec example for an unrecognized
category: all keys recognized, `b = 999`, `a = 150`. -/
def raw999 : RawBonus :=
  ⟨{"s", "e", "b", "a"},
   fun k => if k = "b" then .int 999 else if k = "a" then .int 150 else .str "t"⟩

/-- C5 witness: decoding a bonus with category id 999 succeeds, yields
`bonus_name = "unknown_id:999"`, and stores the raw `a` value 150
unmodified. -/
theorem c5_witness :
    ∃ b : Bonus, Bonus.init ghZero scId raw999 "na" = .ok b ∧
      b.bonus_name = "unknown_id:" ++ toString (999 : ℤ) ∧
      b.bonus_id = 999 ∧
      b.bonus_value
        = (if "a" ∈ raw999.keys then some (raw999.val "a") else none) :=
  c5_bonus_unknown_category ghZero scId raw999 "na" 999 (by decide) (by decide)
    (by decide) (by decide) (by decide) (by rfl) (by decide)

/-! ## Upsert engine (db_util.py, class DbWrapper) -/

/-- A stored row of the target table: the primary key, the natural-key
column values used by alternate-key lookups, and the tracked column
values.  Modelled from the spec (the relational store is an external
collaborator). -/
structure DbRow where
  key : ℤ
  nat : List ℤ
  vals : List ℤ
deriving DecidableEq

/-- The statements the engine issues, modelled from the spec semantically
rather than as SQL text (`sql_item.py`, which renders them, is absent
from the sources): key lookup by natural key (`exists_sql` of the
alternate-key strategy), existence check by primary key (`exists_sql` of
the foreign-key strategy), the tracked-column comparison
(`needs_update_sql`), `SELECT *` by key (as in `load_single_object`),
and the insert/update writes. -/
inductive Sql where
  | selectKeyByNat (nat : List ℤ)
  | existsKey (k : Option ℤ)
  | matchKeyVals (k : Option ℤ) (vals : List ℤ)
  | selectAllCols (k : ℤ)
  | insertAuto (nat : List ℤ) (vals : List ℤ)
  | insertWithKey (k : ℤ) (nat : List ℤ) (vals : List ℤ)
  | updateVals (k : Option ℤ) (vals : List ℤ)
deriving DecidableEq

/-- The write statements: inserts and updates; everything else reads. -/
def isWrite : Sql → Bool
  | .insertAuto _ _ => true
  | .insertWithKey _ _ _ => true
  | .updateVals _ _ => true
  | _ => false

/-- The store state: rows of the target table, the next auto-generated
key, the last generated key (`cursor.lastrowid`), and the ordered log of
every executed statement.  Modelled from the spec (store collaborator:
execute / fetch / last-generated-key). -/
structure Db where
  rows : List DbRow
  nextId : ℤ
  lastRowId : ℤ
  log : List Sql
deriving DecidableEq

/-- The number of write statements in an execution log. -/
def writeCount (log : List Sql) : ℕ := (log.filter isWrite).length

/-- Result of executing one statement: the new store state, the matched
row count (`cursor.execute`'s return), and the fetched rows
(`cursor.fetchall`, one list of column values per row). -/
structure QueryResult where
  db : Db
  rowcount : ℕ
  rows : List (List ℤ)
deriving DecidableEq

/-- Modelled from the spec: execution of one statement against the
store.  Selects report their matches; `insertAuto` appends a row under
the next generated key and publishes it as `lastrowid`; `insertWithKey`
appends a row under the given key (`lastrowid` is not generated);
`updateVals` overwrites the tracked columns of the rows with the given
key.  Every executed statement is appended to the log. -/
def execQuery (db : Db) (q : Sql) : QueryResult :=
  let logged : Db := { db with log := db.log ++ [q] }
  match q with
  | .selectKeyByNat nat =>
    let ms := db.rows.filter (fun r => r.nat == nat)
    ⟨logged, ms.length, ms.map (fun r => [r.key])⟩
  | .existsKey k =>
    let ms := db.rows.filter (fun r => some r.key == k)
    ⟨logged, ms.length, ms.map (fun r => r.key :: r.vals)⟩
  | .matchKeyVals k vals =>
    let ms := db.rows.filter (fun r => some r.key == k && r.vals == vals)
    ⟨logged, ms.length, ms.map (fun r => r.key :: r.vals)⟩
  | .selectAllCols k =>
    let ms := db.rows.filter (fun r => r.key == k)
    ⟨logged, ms.length, ms.map (fun r => r.key :: r.vals)⟩
  | .insertAuto nat vals =>
    ⟨{ logged with
        rows := db.rows ++ [DbRow.mk db.nextId nat vals]
        nextId := db.nextId + 1
        lastRowId := db.nextId }, 1, []⟩
  | .insertWithKey k nat vals =>
    ⟨{ logged with
        rows := db.rows ++ [DbRow.mk k nat vals]
        lastRowId := 0 }, 1, []⟩
  | .updateVals k vals =>
    let ms := db.rows.filter (fun r => some r.key == k)
    let updated := db.rows.map
      (fun r => if some r.key == k then { r with vals := vals } else r)
    ⟨{ logged with rows := updated }, ms.length, []⟩

/-- The store-level errors `DbWrapper` raises (all `ValueError` in the
source): no result where one was required, more than one result for an
existence/uniqueness/scalar query (IdentityAmbiguityError), more than
one column in a scalar read (ColumnArityError), and unexpected results
from an insert. -/
inductive DbError where
  | zeroResults
  | tooManyResults (n : ℕ)
  | tooManyColumns
  | tooManyForInsert (n : ℕ)
deriving DecidableEq

/-- `DbWrapper` state: the dry-run flag set at construction. -/
structure DbWrapper where
  dry_run : Bool

/-- Python `random.randrange(-99999, -1)` from `insert_item`, as a
function of an arbitrary draw: the result always lies in
`[-99999, -2]`. -/
def randrangeNeg (seed : ℤ) : ℤ := -99999 + seed.emod 99998

/-- `DbWrapper.get_single_value`: fetch all rows; zero rows is `None` in
dry-run mode or when `fail_on_empty` is off, an error otherwise; more
than one row is fatal; a single row with more than one column is fatal;
otherwise the single value is returned (the `op` conversion is the
identity here since modelled columns are integers). -/
def get_single_value (w : DbWrapper) (db : Db) (sql : Sql)
    (fail_on_empty : Bool) : Db × Except DbError (Option ℤ) :=
  let q := execQuery db sql
  match q.rows with
  | [] =>
    if w.dry_run || !fail_on_empty then (q.db, .ok none)
    else (q.db, .error .zeroResults)
  | row :: rest =>
    if 0 < rest.length then (q.db, .error (.tooManyResults (rest.length + 1)))
    else if 1 < row.length then (q.db, .error .tooManyColumns)
    else (q.db, .ok row.head?)

/-- `DbWrapper.check_existing`: the matched row count must be at most
one; the result is `bool(num_rows)`. -/
def check_existing (_w : DbWrapper) (db : Db) (sql : Sql) :
    Db × Except DbError Bool :=
  let q := execQuery db sql
  if 1 < q.rowcount then (q.db, .error (.tooManyResults q.rowcount))
  else (q.db, .ok (q.rowcount != 0))

/-- Result of `DbWrapper.check_existing_value`: no row, a single scalar,
or — when the row has more than one column — the whole row. -/
inductive CEVResult where
  | noRow
  | one (v : ℤ)
  | many (vs : List ℤ)
deriving DecidableEq

/-- `DbWrapper.check_existing_value`: more than one row is fatal, zero
rows yields `None`; otherwise the fetched row's values are returned —
the whole list when it has more than one column, else the single
value. -/
def check_existing_value (_w : DbWrapper) (db : Db) (sql : Sql) :
    Db × Except DbError CEVResult :=
  let q := execQuery db sql
  if 1 < q.rowcount then (q.db, .error (.tooManyResults q.rowcount))
  else if q.rowcount = 0 then (q.db, .ok .noRow)
  else
    match q.rows.head? with
    | none => (q.db, .ok .noRow)
    | some row =>
      if 1 < row.length then (q.db, .ok (.many row))
      else (q.db, .ok (.one (row.headD 0)))

/-- `DbWrapper.insert_item`: in dry-run mode nothing is executed and a
synthetic key from the reserved negative range is returned; otherwise
the write executes, any fetched rows are fatal, and the last generated
key is returned. -/
def insert_item (w : DbWrapper) (db : Db) (sql : Sql) (seed : ℤ) :
    Db × Except DbError ℤ :=
  if w.dry_run then (db, .ok (randrangeNeg seed))
  else
    let q := execQuery db sql
    if 0 < q.rows.length then (q.db, .error (.tooManyForInsert q.rows.length))
    else (q.db, .ok q.db.lastRowId)

/-- The three identity-resolution strategies of the spec. -/
inductive Strategy where
  | altKey
  | foreignKey
  | localKey
deriving DecidableEq

/-- Modelled from the spec: `SqlItem` of the absent `sql_item.py`.  A
persistable record declares exactly one identity strategy, carries an
optional local primary-key value (`key_value`/`set_key_value`), the
natural-key column values used by alternate-key and existence lookups,
and the tracked column values. -/
structure SqlItem where
  strategy : Strategy
  key : Option ℤ
  natVals : List ℤ
  vals : List ℤ
deriving DecidableEq

def SqlItem.uses_alternate_key_lookup (it : SqlItem) : Bool :=
  match it.strategy with
  | .altKey => true
  | _ => false

def SqlItem.uses_local_primary_key (it : SqlItem) : Bool :=
  match it.strategy with
  | .localKey => true
  | _ => false

def SqlItem.key_value (it : SqlItem) : Option ℤ := it.key

def SqlItem.set_key_value (it : SqlItem) (k : Option ℤ) : SqlItem :=
  { it with key := k }

/-- Modelled from the spec: a local-primary-key record "knows whether it
needs insertion (key unset/unknown)". -/
def SqlItem.needs_insert (it : SqlItem) : Bool := it.key.isNone

/-- Modelled from the spec: the existence/uniqueness lookup — a key
lookup by natural key for the alternate-key strategy, an existence
predicate on the carried key otherwise. -/
def SqlItem.exists_sql (it : SqlItem) : Sql :=
  match it.strategy with
  | .altKey => .selectKeyByNat it.natVals
  | _ => .existsKey it.key

/-- Modelled from the spec: the "needs update" check queries the stored
row for the resolved identity with the intended tracked-column values;
a hit means no update is needed. -/
def SqlItem.needs_update_sql (it : SqlItem) : Sql :=
  .matchKeyVals it.key it.vals

/-- Modelled from the spec: the insert adopts a generated key when no
key is carried, else inserts under the carried key. -/
def SqlItem.insert_sql (it : SqlItem) : Sql :=
  match it.key with
  | none => .insertAuto it.natVals it.vals
  | some k => .insertWithKey k it.natVals it.vals

/-- Modelled from the spec: the update overwrites the tracked columns of
the row with the resolved key. -/
def SqlItem.update_sql (it : SqlItem) : Sql :=
  .updateVals it.key it.vals

/-- Python falsiness of the looked-up key in `if not key:` — `None` and
`0` both count as missing. -/
def optFalsy : Option ℤ → Bool
  | none => true
  | some k => k == 0

/-- `DbWrapper.insert_or_update` from db_util.py, one branch per
strategy, faithful to the source control flow: the alternate-key branch
looks the key up (`op=int`, `fail_on_empty=False`), stores it on the
item, and inserts on a falsy key, else conditionally updates; the
foreign-key branch checks existence and inserts or conditionally
updates, returning the caller-supplied key when no insert happened; the
local-primary-key branch inserts when the record says so, else
conditionally updates, returning the record's own key when no insert
happened.  All writes go through `insert_item`.  Returns the updated
store, the (possibly mutated) item, and the resolved key. -/
def insert_or_update (w : DbWrapper) (db : Db) (item : SqlItem) (seed : ℤ) :
    Db × Except DbError (SqlItem × Option ℤ) :=
  let key0 := item.key_value
  if item.uses_alternate_key_lookup then
    match get_single_value w db item.exists_sql false with
    | (db1, .error e) => (db1, .error e)
    | (db1, .ok key) =>
      let item1 := item.set_key_value key
      if optFalsy key then
        match insert_item w db1 item1.insert_sql seed with
        | (db2, .error e) => (db2, .error e)
        | (db2, .ok k) => (db2, .ok (item1, some k))
      else
        match check_existing w db1 item1.needs_update_sql with
        | (db2, .error e) => (db2, .error e)
        | (db2, .ok b) =>
          if !b then
            match insert_item w db2 item1.update_sql seed with
            | (db3, .error e) => (db3, .error e)
            | (db3, .ok _) => (db3, .ok (item1, key))
          else (db2, .ok (item1, key))
  else if !item.uses_local_primary_key then
    match check_existing w db item.exists_sql with
    | (db1, .error e) => (db1, .error e)
    | (db1, .ok ex) =>
      if !ex then
        match insert_item w db1 item.insert_sql seed with
        | (db2, .error e) => (db2, .error e)
        | (db2, .ok k) => (db2, .ok (item, some k))
      else
        match check_existing w db1 item.needs_update_sql with
        | (db2, .error e) => (db2, .error e)
        | (db2, .ok b) =>
          if !b then
            match insert_item w db2 item.update_sql seed with
            | (db3, .error e) => (db3, .error e)
            | (db3, .ok _) => (db3, .ok (item, key0))
          else (db2, .ok (item, key0))
  else
    if item.needs_insert then
      match insert_item w db item.insert_sql seed with
      | (db1, .error e) => (db1, .error e)
      | (db1, .ok k) => (db1, .ok (item, some k))
    else
      match check_existing w db item.needs_update_sql with
      | (db1, .error e) => (db1, .error e)
      | (db1, .ok b) =>
        if !b then
          match insert_item w db1 item.update_sql seed with
          | (db2, .error e) => (db2, .error e)
          | (db2, .ok _) => (db2, .ok (item, key0))
        else (db1, .ok (item, key0))

theorem execQuery_log (db : Db) (q : Sql) :
    (execQuery db q).db.log = db.log ++ [q] := by
  cases q <;> rfl

theorem writeCount_read (db : Db) (q : Sql) (h : isWrite q = false) :
    writeCount (execQuery db q).db.log = writeCount db.log := by
  rw [execQuery_log]
  simp [writeCount, List.filter_append, h]

theorem get_single_value_fst (w : DbWrapper) (db : Db) (sql : Sql)
    (fop : Bool) : (get_single_value w db sql fop).1 = (execQuery db sql).db := by
  unfold get_single_value
  dsimp only
  repeat' split
  all_goals rfl

theorem check_existing_fst (w : DbWrapper) (db : Db) (sql : Sql) :
    (check_existing w db sql).1 = (execQuery db sql).db := by
  unfold check_existing
  dsimp only
  split
  all_goals rfl

theorem check_existing_value_fst (w : DbWrapper) (db : Db) (sql : Sql) :
    (check_existing_value w db sql).1 = (execQuery db sql).db := by
  unfold check_existing_value
  dsimp only
  repeat' split
  all_goals rfl

theorem insert_item_dry (db : Db) (sql : Sql) (seed : ℤ) :
    insert_item ⟨true⟩ db sql seed = (db, .ok (randrangeNeg seed)) := rfl

theorem exists_sql_read (it : SqlItem) : isWrite it.exists_sql = false := by
  unfold SqlItem.exists_sql
  cases it.strategy <;> rfl

theorem needs_update_read (it : SqlItem) : isWrite it.needs_update_sql = false :=
  rfl

theorem gsv_writeCount (w : DbWrapper) (db : Db) (sql : Sql) (fop : Bool)
    (h : isWrite sql = false) :
    writeCount (get_single_value w db sql fop).1.log = writeCount db.log := by
  rw [get_single_value_fst]
  exact writeCount_read db sql h

theorem ce_writeCount (w : DbWrapper) (db : Db) (sql : Sql)
    (h : isWrite sql = false) :
    writeCount (check_existing w db sql).1.log = writeCount db.log := by
  rw [check_existing_fst]
  exact writeCount_read db sql h

theorem randrangeNeg_bounds (seed : ℤ) :
    -99999 ≤ randrangeNeg seed ∧ randrangeNeg seed < -1 := by
  unfold randrangeNeg
  have h1 : 0 ≤ seed.emod 99998 := Int.emod_nonneg seed (by norm_num)
  have h2 : seed.emod 99998 < 99998 := Int.emod_lt_of_pos seed (by norm_num)
  omega

/-- Helper for C6: in dry-run mode `insert_or_update` never changes the
count of write statements in the log, whatever the strategy. -/
theorem dry_run_no_writes (db : Db) (item : SqlItem) (seed : ℤ) :
    writeCount (insert_or_update ⟨true⟩ db item seed).1.log
      = writeCount db.log := by
  unfold insert_or_update
  by_cases halt : item.uses_alternate_key_lookup
  · rw [if_pos halt]
    rcases hg : get_single_value ⟨true⟩ db item.exists_sql false with ⟨db1, res⟩
    have hw1 : writeCount db1.log = writeCount db.log := by
      have h := gsv_writeCount ⟨true⟩ db item.exists_sql false
        (exists_sql_read item)
      rw [hg] at h
      exact h
    cases res with
    | error e => simp [hg, hw1]
    | ok key =>
      by_cases hf : optFalsy key
      · simp [hg, hf, insert_item_dry, hw1]
      · rcases hc : check_existing ⟨true⟩ db1
            (item.set_key_value key).needs_update_sql with ⟨db2, res2⟩
        have hw2 : writeCount db2.log = writeCount db1.log := by
          have h := ce_writeCount ⟨true⟩ db1
            (item.set_key_value key).needs_update_sql
            (needs_update_read (item.set_key_value key))
          rw [hc] at h
          exact h
        cases res2 with
        | error e => simp [hg, hf, hc, hw1, hw2]
        | ok b =>
          cases b <;> simp [hg, hf, hc, insert_item_dry, hw1, hw2]
  · rw [if_neg halt]
    by_cases hloc : item.uses_local_primary_key
    · simp only [hloc, Bool.not_true, Bool.false_eq_true, if_false]
      by_cases hni : item.needs_insert
      · simp [hni, insert_item_dry]
      · rcases hc : check_existing ⟨true⟩ db item.needs_update_sql
          with ⟨db1, res1⟩
        have hw1 : writeCount db1.log = writeCount db.log := by
          have h := ce_writeCount ⟨true⟩ db item.needs_update_sql
            (needs_update_read item)
          rw [hc] at h
          exact h
        cases res1 with
        | error e => simp [hni, hc, hw1]
        | ok b =>
          cases b <;> simp [hni, hc, insert_item_dry, hw1]
    · simp only [Bool.not_eq_true] at hloc
      simp only [hloc, Bool.not_false, if_true]
      rcases hc : check_existing ⟨true⟩ db item.exists_sql with ⟨db1, res1⟩
      have hw1 : writeCount db1.log = writeCount db.log := by
        have h := ce_writeCount ⟨true⟩ db item.exists_sql (exists_sql_read item)
        rw [hc] at h
        exact h
      cases res1 with
      | error e => simp [hc, hw1]
      | ok ex =>
        cases ex with
        | false => simp [hc, insert_item_dry, hw1]
        | true =>
          rcases hc2 : check_existing ⟨true⟩ db1 item.needs_update_sql
            with ⟨db2, res2⟩
          have hw2 : writeCount db2.log = writeCount db1.log := by
            have h := ce_writeCount ⟨true⟩ db1 item.needs_update_sql
              (needs_update_read item)
            rw [hc2] at h
            exact h
          cases res2 with
          | error e => simp [hc, hc2, hw1, hw2]
          | ok b =>
            cases b <;> simp [hc, hc2, insert_item_dry, hw1, hw2]

/-- C6: in dry-run mode `insert_or_update` issues zero write statements
for every record and strategy (the write log's write count never
changes: inserts and updates are both suppressed in `insert_item`),
and every simulated insert returns the synthetic key
`randrangeNeg seed ∈ [-99999, -2]`, always below the fixed negative
bound `-1` and so distinguishable from real generated keys. -/
theorem c6_dry_run_suppresses_writes :
    (∀ (db : Db) (item : SqlItem) (seed : ℤ),
      writeCount (insert_or_update ⟨true⟩ db item seed).1.log
        = writeCount db.log) ∧
    (∀ (db : Db) (sql : Sql) (seed : ℤ),
      insert_item ⟨true⟩ db sql seed = (db, .ok (randrangeNeg seed)) ∧
      -99999 ≤ randrangeNeg seed ∧ randrangeNeg seed < -1) :=
  ⟨fun db item seed => dry_run_no_writes db item seed,
   fun db sql seed =>
     ⟨insert_item_dry db sql seed, randrangeNeg_bounds seed⟩⟩

/-- C8 (amended): `get_single_value` — the scalar read — raises the
fatal column-arity error whenever its single fetched row has more than
one column. -/
theorem c8_scalar_read_column_arity (w : DbWrapper) (db : Db) (sql : Sql)
    (fop : Bool) (row : List ℤ)
    (hrows : (execQuery db sql).rows = [row]) (hlen : 1 < row.length) :
    (get_single_value w db sql fop).2 = .error .tooManyColumns := by
  unfold get_single_value
  dsimp only
  rw [hrows]
  simp [hlen]

/-- A store with one two-column row under key 5, used to exercise the
scalar reads on a multi-column result. -/
def dbWide : Db := ⟨[DbRow.mk 5 [] [7]], 6, 0, []⟩

/-- C8 witness: on a `SELECT *` returning the single row `[5, 7]` (two
columns), `get_single_value` raises the column-arity error. -/
theorem c8_witness :
    (execQuery dbWide (Sql.selectAllCols 5)).rows = [[5, 7]] ∧
    1 < [5, 7].length ∧
    (get_single_value ⟨false⟩ dbWide (Sql.selectAllCols 5) true).2
      = .error .tooManyColumns :=
  ⟨by decide, by decide,
   c8_scalar_read_column_arity ⟨false⟩ dbWide (Sql.selectAllCols 5) true
     [5, 7] (by decide) (by decide)⟩

/-- C8 counterexample: `check_existing_value` is also a read expected to
yield a single value, but on the same two-column row it raises nothing
and returns the whole row's values `[5, 7]` instead. -/
theorem c8_counterexample :
    (check_existing_value ⟨false⟩ dbWide (Sql.selectAllCols 5)).2
      = .ok (.many [5, 7]) := rfl

/-- Matched row count of a statement against a store. -/
def queryCount (db : Db) (q : Sql) : ℕ := (execQuery db q).rowcount

theorem execQuery_read_rows (db : Db) (q : Sql) (h : isWrite q = false) :
    (execQuery db q).db.rows = db.rows := by
  cases q <;> simp_all [execQuery, isWrite]

theorem queryCount_eq_of_rows (db1 db2 : Db) (q : Sql)
    (h : db1.rows = db2.rows) : queryCount db1 q = queryCount db2 q := by
  cases q <;> simp [queryCount, execQuery, h]

theorem check_existing_too_many (w : DbWrapper) (db : Db) (sql : Sql)
    (h : 1 < (execQuery db sql).rowcount) :
    check_existing w db sql
      = ((execQuery db sql).db,
         .error (.tooManyResults (execQuery db sql).rowcount)) := by
  unfold check_existing
  dsimp only
  rw [if_pos h]

theorem check_existing_ok (w : DbWrapper) (db : Db) (sql : Sql)
    (h : ¬ 1 < (execQuery db sql).rowcount) :
    check_existing w db sql
      = ((execQuery db sql).db, .ok ((execQuery db sql).rowcount != 0)) := by
  unfold check_existing
  dsimp only
  rw [if_neg h]

theorem gsv_too_many (w : DbWrapper) (db : Db) (sql : Sql) (fop : Bool)
    (h : 1 < (execQuery db sql).rows.length) :
    ∃ n, 1 < n ∧ get_single_value w db sql fop
      = ((execQuery db sql).db, .error (.tooManyResults n)) := by
  unfold get_single_value
  dsimp only
  rcases hr : (execQuery db sql).rows with _ | ⟨row, rest⟩
  · rw [hr] at h
    simp at h
  · rw [hr] at h
    simp only [List.length_cons] at h
    refine ⟨rest.length + 1, by omega, ?_⟩
    dsimp only
    rw [if_pos (by omega : 0 < rest.length)]

theorem gsv_single (w : DbWrapper) (db : Db) (sql : Sql) (fop : Bool) (k : ℤ)
    (h : (execQuery db sql).rows = [[k]]) :
    get_single_value w db sql fop = ((execQuery db sql).db, .ok (some k)) := by
  unfold get_single_value
  dsimp only
  rw [h]
  simp

theorem selectKeyByNat_rows_len (db : Db) (nat : List ℤ) :
    (execQuery db (Sql.selectKeyByNat nat)).rows.length
      = (execQuery db (Sql.selectKeyByNat nat)).rowcount := by
  simp [execQuery]

/-- The ambiguity condition of C7, per strategy: the existence or
uniqueness query the strategy runs matches more than one row.  For the
alternate-key strategy the second disjunct covers the tracked-column
check run after a successful (single-row, nonzero) key lookup; for the
foreign-key strategy after a successful existence check; the local
strategy runs only the tracked-column check (when the record carries its
key). -/
def ambiguousCheck (item : SqlItem) (db : Db) : Prop :=
  match item.strategy with
  | .altKey =>
      1 < queryCount db item.exists_sql ∨
      (∃ k : ℤ, (execQuery db item.exists_sql).rows = [[k]] ∧ ¬ k = 0 ∧
        1 < queryCount db (Sql.matchKeyVals (some k) item.vals))
  | .foreignKey =>
      1 < queryCount db item.exists_sql ∨
      (queryCount db item.exists_sql = 1 ∧
        1 < queryCount db item.needs_update_sql)
  | .localKey =>
      item.key.isSome = true ∧ 1 < queryCount db item.needs_update_sql


/-- Evaluation of `insert_or_update` on an alternate-key record: the
strategy dispatch reduces and the branch is taken verbatim. -/
theorem iou_alt (w : DbWrapper) (db : Db) (seed : ℤ) (key : Option ℤ)
    (nats vals : List ℤ) :
    insert_or_update w db ⟨.altKey, key, nats, vals⟩ seed =
      (match get_single_value w db (Sql.selectKeyByNat nats) false with
       | (db1, .error e) => (db1, .error e)
       | (db1, .ok key2) =>
         if optFalsy key2 then
           match insert_item w db1
               (SqlItem.insert_sql ⟨.altKey, key2, nats, vals⟩) seed with
           | (db2, .error e) => (db2, .error e)
           | (db2, .ok k) =>
             (db2, .ok ((⟨.altKey, key2, nats, vals⟩ : SqlItem), some k))
         else
           match check_existing w db1 (Sql.matchKeyVals key2 vals) with
           | (db2, .error e) => (db2, .error e)
           | (db2, .ok b) =>
             if !b then
               match insert_item w db2 (Sql.updateVals key2 vals) seed with
               | (db3, .error e) => (db3, .error e)
               | (db3, .ok _) =>
                 (db3, .ok ((⟨.altKey, key2, nats, vals⟩ : SqlItem), key2))
             else (db2, .ok ((⟨.altKey, key2, nats, vals⟩ : SqlItem), key2))) :=
  rfl

/-- Evaluation of `insert_or_update` on a foreign-key record. -/
theorem iou_fk (w : DbWrapper) (db : Db) (seed : ℤ) (key : Option ℤ)
    (nats vals : List ℤ) :
    insert_or_update w db ⟨.foreignKey, key, nats, vals⟩ seed =
      (match check_existing w db (Sql.existsKey key) with
       | (db1, .error e) => (db1, .error e)
       | (db1, .ok ex) =>
         if !ex then
           match insert_item w db1
               (SqlItem.insert_sql ⟨.foreignKey, key, nats, vals⟩) seed with
           | (db2, .error e) => (db2, .error e)
           | (db2, .ok k) =>
             (db2, .ok ((⟨.foreignKey, key, nats, vals⟩ : SqlItem), some k))
         else
           match check_existing w db1 (Sql.matchKeyVals key vals) with
           | (db2, .error e) => (db2, .error e)
           | (db2, .ok b) =>
             if !b then
               match insert_item w db2 (Sql.updateVals key vals) seed with
               | (db3, .error e) => (db3, .error e)
               | (db3, .ok _) =>
                 (db3, .ok ((⟨.foreignKey, key, nats, vals⟩ : SqlItem), key))
             else (db2, .ok ((⟨.foreignKey, key, nats, vals⟩ : SqlItem), key))) :=
  rfl

/-- Evaluation of `insert_or_update` on a local-primary-key record. -/
theorem iou_local (w : DbWrapper) (db : Db) (seed : ℤ) (key : Option ℤ)
    (nats vals : List ℤ) :
    insert_or_update w db ⟨.localKey, key, nats, vals⟩ seed =
      (if key.isNone then
         match insert_item w db
             (SqlItem.insert_sql ⟨.localKey, key, nats, vals⟩) seed with
         | (db1, .error e) => (db1, .error e)
         | (db1, .ok k) =>
           (db1, .ok ((⟨.localKey, key, nats, vals⟩ : SqlItem), some k))
       else
         match check_existing w db (Sql.matchKeyVals key vals) with
         | (db1, .error e) => (db1, .error e)
         | (db1, .ok b) =>
           if !b then
             match insert_item w db1 (Sql.updateVals key vals) seed with
             | (db2, .error e) => (db2, .error e)
             | (db2, .ok _) =>
               (db2, .ok ((⟨.localKey, key, nats, vals⟩ : SqlItem), key))
           else (db1, .ok ((⟨.localKey, key, nats, vals⟩ : SqlItem), key))) :=
  rfl

/-- C7: whenever the existence or uniqueness query run by the record's
strategy matches more than one row, `insert_or_update` raises the
identity-ambiguity error (`got too many results`) and issues zero write
statements for that call — the ambiguity is never auto-resolved by
picking a match. -/
theorem c7_identity_ambiguity (w : DbWrapper) (db : Db) (item : SqlItem)
    (seed : ℤ) (h : ambiguousCheck item db) :
    (∃ n, 1 < n ∧
      (insert_or_update w db item seed).2 = .error (.tooManyResults n)) ∧
    writeCount (insert_or_update w db item seed).1.log = writeCount db.log := by
  obtain ⟨strat, key, nats, vals⟩ := item
  cases strat
  case altKey =>
    unfold ambiguousCheck at h
    dsimp only [SqlItem.exists_sql] at h
    rcases h with h1 | ⟨k, hrows, hk0, hcnt⟩
    · have hlen : 1 < (execQuery db (Sql.selectKeyByNat nats)).rows.length := by
        rw [selectKeyByNat_rows_len]
        exact h1
      obtain ⟨n, hn, hgsv⟩ :=
        gsv_too_many w db (Sql.selectKeyByNat nats) false hlen
      rw [iou_alt, hgsv]
      refine ⟨⟨n, hn, rfl⟩, ?_⟩
      show writeCount (execQuery db (Sql.selectKeyByNat nats)).db.log
        = writeCount db.log
      exact writeCount_read db (Sql.selectKeyByNat nats) rfl
    · have hgsv := gsv_single w db (Sql.selectKeyByNat nats) false k hrows
      have hrows1 : (execQuery db (Sql.selectKeyByNat nats)).db.rows = db.rows :=
        execQuery_read_rows db (Sql.selectKeyByNat nats) rfl
      have hcnt1 : 1 < (execQuery (execQuery db (Sql.selectKeyByNat nats)).db
          (Sql.matchKeyVals (some k) vals)).rowcount := by
        have heq := queryCount_eq_of_rows
          (execQuery db (Sql.selectKeyByNat nats)).db db
          (Sql.matchKeyVals (some k) vals) hrows1
        unfold queryCount at heq
        rw [heq]
        exact hcnt
      have hce := check_existing_too_many w
        (execQuery db (Sql.selectKeyByNat nats)).db
        (Sql.matchKeyVals (some k) vals) hcnt1
      rw [iou_alt, hgsv]
      dsimp only
      rw [if_neg (show ¬ optFalsy (some k) = true from by simp [optFalsy, hk0])]
      rw [hce]
      refine ⟨⟨_, hcnt1, rfl⟩, ?_⟩
      show writeCount (execQuery (execQuery db (Sql.selectKeyByNat nats)).db
        (Sql.matchKeyVals (some k) vals)).db.log = writeCount db.log
      rw [writeCount_read (execQuery db (Sql.selectKeyByNat nats)).db
        (Sql.matchKeyVals (some k) vals) rfl]
      exact writeCount_read db (Sql.selectKeyByNat nats) rfl
  case foreignKey =>
    unfold ambiguousCheck at h
    dsimp only [SqlItem.exists_sql, SqlItem.needs_update_sql] at h
    unfold queryCount at h
    rcases h with h1 | ⟨h1, h2⟩
    · have hce := check_existing_too_many w db (Sql.existsKey key) h1
      rw [iou_fk, hce]
      refine ⟨⟨_, h1, rfl⟩, ?_⟩
      show writeCount (execQuery db (Sql.existsKey key)).db.log
        = writeCount db.log
      exact writeCount_read db (Sql.existsKey key) rfl
    · have hce1 := check_existing_ok w db (Sql.existsKey key) (by omega)
      have hrows1 : (execQuery db (Sql.existsKey key)).db.rows = db.rows :=
        execQuery_read_rows db (Sql.existsKey key) rfl
      have hcnt2 : 1 < (execQuery (execQuery db (Sql.existsKey key)).db
          (Sql.matchKeyVals key vals)).rowcount := by
        have heq := queryCount_eq_of_rows (execQuery db (Sql.existsKey key)).db
          db (Sql.matchKeyVals key vals) hrows1
        unfold queryCount at heq
        rw [heq]
        exact h2
      have hce2 := check_existing_too_many w
        (execQuery db (Sql.existsKey key)).db (Sql.matchKeyVals key vals) hcnt2
      rw [iou_fk, hce1]
      dsimp only
      rw [h1]
      rw [if_neg (by simp)]
      rw [hce2]
      refine ⟨⟨_, hcnt2, rfl⟩, ?_⟩
      show writeCount (execQuery (execQuery db (Sql.existsKey key)).db
        (Sql.matchKeyVals key vals)).db.log = writeCount db.log
      rw [writeCount_read (execQuery db (Sql.existsKey key)).db
        (Sql.matchKeyVals key vals) rfl]
      exact writeCount_read db (Sql.existsKey key) rfl
  case localKey =>
    unfold ambiguousCheck at h
    dsimp only [SqlItem.needs_update_sql] at h
    obtain ⟨hsome, hcnt⟩ := h
    unfold queryCount at hcnt
    obtain ⟨kv, rfl⟩ := Option.isSome_iff_exists.mp hsome
    have hce := check_existing_too_many w db
      (Sql.matchKeyVals (some kv) vals) hcnt
    rw [iou_local]
    dsimp only [Option.isNone]
    rw [if_neg (by simp)]
    rw [hce]
    refine ⟨⟨_, hcnt, rfl⟩, ?_⟩
    show writeCount (execQuery db (Sql.matchKeyVals (some kv) vals)).db.log
      = writeCount db.log
    exact writeCount_read db (Sql.matchKeyVals (some kv) vals) rfl

/-- A corrupted store: two rows share key 5. -/
def dbDup : Db := ⟨[DbRow.mk 5 [] [1], DbRow.mk 5 [] [2]], 6, 0, []⟩

/-- A foreign-key record whose existence query hits both rows. -/
def itemFk : SqlItem := ⟨.foreignKey, some 5, [], [9]⟩

/-- C7 witness: an existence query matching exactly 2 rows raises the
identity-ambiguity error and issues zero writes. -/
theorem c7_witness :
    (∃ n, 1 < n ∧
      (insert_or_update ⟨false⟩ dbDup itemFk 0).2
        = .error (.tooManyResults n)) ∧
    writeCount (insert_or_update ⟨false⟩ dbDup itemFk 0).1.log
      = writeCount dbDup.log :=
  c7_identity_ambiguity ⟨false⟩ dbDup itemFk 0
    (Or.inl (show 1 < queryCount dbDup itemFk.exists_sql by decide))

/-- The empty store used by the local-primary-key scenarios. -/
def dbEmpty : Db := ⟨[], 1, 0, []⟩

/-- A local-primary-key record with its key unset. -/
def itemLoc : SqlItem := ⟨.localKey, none, [], [7]⟩

/-- C1 counterexample: two sequential `insert_or_update` calls with the
literally unchanged local-primary-key record (key still unset — the
local branch never writes the generated key back into the record) issue
TWO inserts, not one, and return the different generated keys 1 and 2. -/
theorem c1_counterexample :
    (insert_or_update ⟨false⟩ dbEmpty itemLoc 0).2 = .ok (itemLoc, some 1) ∧
    (insert_or_update ⟨false⟩ (insert_or_update ⟨false⟩ dbEmpty itemLoc 0).1
        itemLoc 0).2 = .ok (itemLoc, some 2) ∧
    writeCount (insert_or_update ⟨false⟩
        (insert_or_update ⟨false⟩ dbEmpty itemLoc 0).1 itemLoc 0).1.log = 2 ∧
    ¬ ((some 1 : Option ℤ) = some 2) :=
  ⟨rfl, rfl, rfl, by decide⟩

theorem insert_item_auto (db : Db) (nats vals : List ℤ) (seed : ℤ) :
    insert_item ⟨false⟩ db (Sql.insertAuto nats vals) seed
      = ((execQuery db (Sql.insertAuto nats vals)).db, .ok db.nextId) := rfl

/-- C1 (amended): the idempotent local-primary-key round trip needs the
caller to adopt the key returned by the first call.  On a store whose
next generated key is fresh, a call with the key unset issues exactly
one insert and returns the generated key `db.nextId`; a second call
whose record carries that returned key and unchanged tracked values
issues zero further writes and returns the same key.  (With the record
literally unchanged the engine inserts again — see the
counterexample.) -/
theorem c1_local_pk_upsert (db : Db) (nats vals : List ℤ) (seed : ℤ)
    (hfresh : ∀ r ∈ db.rows, ¬ r.key = db.nextId) :
    (insert_or_update ⟨false⟩ db ⟨.localKey, none, nats, vals⟩ seed).2
      = .ok (⟨.localKey, none, nats, vals⟩, some db.nextId) ∧
    writeCount
        (insert_or_update ⟨false⟩ db ⟨.localKey, none, nats, vals⟩ seed).1.log
      = writeCount db.log + 1 ∧
    (insert_or_update ⟨false⟩
        (insert_or_update ⟨false⟩ db ⟨.localKey, none, nats, vals⟩ seed).1
        ⟨.localKey, some db.nextId, nats, vals⟩ seed).2
      = .ok (⟨.localKey, some db.nextId, nats, vals⟩, some db.nextId) ∧
    writeCount (insert_or_update ⟨false⟩
        (insert_or_update ⟨false⟩ db ⟨.localKey, none, nats, vals⟩ seed).1
        ⟨.localKey, some db.nextId, nats, vals⟩ seed).1.log
      = writeCount
          (insert_or_update ⟨false⟩ db ⟨.localKey, none, nats, vals⟩ seed).1.log
      := by
  have hcall1 : insert_or_update ⟨false⟩ db ⟨.localKey, none, nats, vals⟩ seed
      = ((execQuery db (Sql.insertAuto nats vals)).db,
         .ok (⟨.localKey, none, nats, vals⟩, some db.nextId)) := by
    rw [iou_local]
    dsimp only [Option.isNone, SqlItem.insert_sql]
    rw [if_pos rfl, insert_item_auto]
  have hdb1 : (insert_or_update ⟨false⟩ db ⟨.localKey, none, nats, vals⟩
      seed).1 = (execQuery db (Sql.insertAuto nats vals)).db := by
    rw [hcall1]
  have hnil : db.rows.filter
      (fun r => some r.key == some db.nextId && r.vals == vals) = [] := by
    rw [List.filter_eq_nil_iff]
    intro r hr hp
    rw [Bool.and_eq_true, beq_iff_eq, beq_iff_eq] at hp
    exact hfresh r hr (Option.some.inj hp.1)
  have hcnt : (execQuery (execQuery db (Sql.insertAuto nats vals)).db
      (Sql.matchKeyVals (some db.nextId) vals)).rowcount = 1 := by
    dsimp only [execQuery]
    rw [List.filter_append, hnil]
    simp
  have hce := check_existing_ok ⟨false⟩
    (execQuery db (Sql.insertAuto nats vals)).db
    (Sql.matchKeyVals (some db.nextId) vals) (by rw [hcnt]; omega)
  have hcall2 : insert_or_update ⟨false⟩
      (execQuery db (Sql.insertAuto nats vals)).db
      ⟨.localKey, some db.nextId, nats, vals⟩ seed
      = ((execQuery (execQuery db (Sql.insertAuto nats vals)).db
            (Sql.matchKeyVals (some db.nextId) vals)).db,
         .ok (⟨.localKey, some db.nextId, nats, vals⟩, some db.nextId)) := by
    rw [iou_local]
    dsimp only [Option.isNone]
    rw [if_neg (by simp), hce]
    dsimp only
    rw [hcnt]
    rw [if_neg (by simp)]
  refine ⟨by rw [hcall1], ?_, ?_, ?_⟩
  · rw [hdb1, execQuery_log]
    simp [writeCount, List.filter_append, isWrite]
  · rw [hdb1, hcall2]
  · rw [hdb1, hcall2]
    dsimp only
    exact writeCount_read (execQuery db (Sql.insertAuto nats vals)).db
      (Sql.matchKeyVals (some db.nextId) vals) rfl

/-- C1 witness: the amended round trip evaluated on the empty store with
tracked values `[7]`: one insert returning key 1, then a second call
carrying key 1 with zero further writes and the same key. -/
theorem c1_witness :
    (∀ r ∈ dbEmpty.rows, ¬ r.key = dbEmpty.nextId) ∧
    ((insert_or_update ⟨false⟩ dbEmpty ⟨.localKey, none, [], [7]⟩ 0).2
        = .ok (⟨.localKey, none, [], [7]⟩, some dbEmpty.nextId) ∧
     writeCount
         (insert_or_update ⟨false⟩ dbEmpty ⟨.localKey, none, [], [7]⟩ 0).1.log
       = writeCount dbEmpty.log + 1 ∧
     (insert_or_update ⟨false⟩
         (insert_or_update ⟨false⟩ dbEmpty ⟨.localKey, none, [], [7]⟩ 0).1
         ⟨.localKey, some dbEmpty.nextId, [], [7]⟩ 0).2
       = .ok (⟨.localKey, some dbEmpty.nextId, [], [7]⟩, some dbEmpty.nextId) ∧
     writeCount (insert_or_update ⟨false⟩
         (insert_or_update ⟨false⟩ dbEmpty ⟨.localKey, none, [], [7]⟩ 0).1
         ⟨.localKey, some dbEmpty.nextId, [], [7]⟩ 0).1.log
       = writeCount
           (insert_or_update ⟨false⟩ dbEmpty
             ⟨.localKey, none, [], [7]⟩ 0).1.log) :=
  ⟨by simp [dbEmpty], c1_local_pk_upsert dbEmpty [] [7] 0 (by simp [dbEmpty])⟩
